import Mathlib

/-!
Shallow embedding of the `home_energy_nyc` CO2 pipeline
(`src/home_energy_nyc/co2_utils.py`): the per-category curve builder of
`generate_curves` and the grid carbon-intensity estimator
`calc_grid_co2_avg`, together with theorems checking the repository's
specification against this embedding.

Numeric cell values are modelled as `ℚ`.  A pandas `NaN` capacity factor
is modelled as `none : Option ℚ` (the data model admits `NaN` only for
the capacity-factor column).  Python exceptions raised by the embedded
code paths are modelled by `PyErr`, and any computation that can raise
returns `Except PyErr _`.  All column operations performed by
`calc_grid_co2_avg` (`Series.apply`, `+`, `/`) act elementwise over the
shared timestamp index, so the estimator is embedded as one scalar pass
per timestamp (`rowSums` / `calcRow`) mapped over the index
(`calcSeries`).
-/

namespace HomeEnergy

/-- Python exception classes raised by the embedded code paths:
a dict lookup miss (`co2_curves[c]`), `np.interp` called with an empty
sample-point array, and `open()` on a path that does not exist. -/
inductive PyErr where
  | keyError
  | valueError
  | fileNotFoundError
  deriving DecidableEq

/-- Which of the modelled Python exceptions are `LookupError`s: in
Python, `KeyError` (and `IndexError`) subclass `LookupError`, while
`ValueError` and `FileNotFoundError` do not. -/
def isLookupError : PyErr → Bool
  | .keyError => true
  | .valueError => false
  | .fileNotFoundError => false

/-- A pandas float cell: a finite rational, `NaN`, or a signed infinity. -/
inductive PdFloat where
  | val (q : ℚ)
  | nan
  | inf
  | ninf
  deriving DecidableEq

/-- Pandas float division as used in `df['co2_rate'] / df['total_mwh']`:
`0 / 0` gives `NaN`, `x / 0` with `x ≠ 0` gives a signed infinity, and
a nonzero denominator gives the exact quotient. -/
def pdDiv (num den : ℚ) : PdFloat :=
  if den = 0 then
    if num = 0 then .nan else if 0 < num then .inf else .ninf
  else
    .val (num / den)

/-- `np.interp(x, xp, fp)` with the curve passed as the list of
`(cum_cap, co2_rate)` rows: raises `ValueError` on an empty curve,
clamps below the first sample point and above the last one, and is
piecewise linear in between (numpy assumes `xp` is sorted). -/
def npInterp (x : ℚ) : List (ℚ × ℚ) → Except PyErr ℚ
  | [] => .error .valueError
  | [(_, y0)] => .ok y0
  | (x0, y0) :: (x1, y1) :: rest =>
    if x < x0 then .ok y0
    else if x < x1 then .ok (y0 + (y1 - y0) * (x - x0) / (x1 - x0))
    else npInterp x ((x1, y1) :: rest)

/-- One eGRID plant row after the region filter and the fuel-code remap
of `generate_curves`: `CAPFAC` (with `none` modelling a pandas `NaN`),
`NAMEPCAP`, `PLC2ERTA` and the remapped `PLFUELCT` category. -/
structure Plant where
  capfac : Option ℚ
  namepcap : ℚ
  plc2erta : ℚ
  fuelcat : String
  deriving DecidableEq

/-- `a` ranks strictly before `b` in the descending-`CAPFAC` ordering of
`sort_values('CAPFAC', ascending=False)`; a `NaN` capacity factor sorts
after every numeric one (pandas `na_position='last'`). -/
def cfGT (a b : Plant) : Bool :=
  match a.capfac, b.capfac with
  | some x, some y => y < x
  | some _, none => true
  | none, _ => false

/-- Insert a plant into a list already sorted descending by `CAPFAC`,
placing it before any element it does not rank strictly after. -/
def insertDesc (p : Plant) : List Plant → List Plant
  | [] => [p]
  | q :: qs => if cfGT q p then q :: insertDesc p qs else p :: q :: qs

/-- The ranking step of `generate_curves`: sort the selected plants
descending by capacity factor.  This determinizes pandas `sort_values`
as a stable insertion sort. -/
def sortCapfacDesc : List Plant → List Plant
  | [] => []
  | p :: ps => insertDesc p (sortCapfacDesc ps)

/-- The `cum_cap` column: attach to each ranked plant the running sum of
`NAMEPCAP` (`cumsum` over the ranked rows, computed before any row is
dropped). -/
def attachCum (acc : ℚ) : List Plant → List (Plant × ℚ)
  | [] => []
  | p :: ps => (p, acc + p.namepcap) :: attachCum (acc + p.namepcap) ps

/-- The `cum_co2` column: running sum of `PLC2ERTA * NAMEPCAP` over the
kept rows, paired with each row's previously computed `cum_cap`. -/
def attachCo2 (acc : ℚ) : List (Plant × ℚ) → List (ℚ × ℚ)
  | [] => []
  | (p, cc) :: ps =>
    (cc, acc + p.plc2erta * p.namepcap) :: attachCo2 (acc + p.plc2erta * p.namepcap) ps

/-- Pandas `Series.max()` over a column given as a list.  On an empty
series pandas yields `NaN`; in the code that case only ever multiplies
an empty column, so the returned value is never observed. -/
def seriesMax : List ℚ → ℚ
  | [] => 0
  | [x] => x
  | x :: y :: xs => max x (seriesMax (y :: xs))

/-- The per-category curve of `generate_curves` just before the rescale
line: select the category, rank descending by capacity factor, attach
`cum_cap`, fill `NaN` capacity factors with 0 (`fillna(0)`), drop the
rows whose capacity factor is exactly 0, attach `cum_co2`, and form
`co2_rate = cum_co2 / cum_cap`. -/
def buildCurvePre (plants : List Plant) (v : String) : List (ℚ × ℚ) :=
  let sel := plants.filter (fun p => p.fuelcat == v)
  let ranked := sortCapfacDesc sel
  let withCum := attachCum 0 ranked
  let kept := withCum.filter (fun pc => decide (pc.1.capfac.getD 0 ≠ 0))
  (attachCo2 0 kept).map (fun cc => (cc.1, cc.2 / cc.1))

/-- The final per-category curve: rescale the `cum_cap` axis by
`nyiso_fmix_max[v] / cum_cap.max()`, i.e. the category's observed peak
generation over the curve's own maximum cumulative capacity. -/
def buildCurve (plants : List Plant) (v : String) (peak : ℚ) : List (ℚ × ℚ) :=
  let pre := buildCurvePre plants v
  let m := seriesMax (pre.map Prod.fst)
  pre.map (fun cr => (cr.1 * peak / m, cr.2))

/-- The bookkeeping columns added by `calc_grid_co2_avg`; its column
loop skips exactly these (`if c != 'co2_rate' and c != 'total_mwh'`). -/
def isBookkeeping (c : String) : Bool :=
  c == "co2_rate" || c == "total_mwh"

/-- Whether the loaded curve set has a usable (present and non-empty)
curve for category `c`. -/
def hasCurve (curves : List (String × List (ℚ × ℚ))) (c : String) : Bool :=
  match List.lookup c curves with
  | none => false
  | some [] => false
  | some (_ :: _) => true

/-- The column loop of `calc_grid_co2_avg` evaluated at one timestamp:
accumulate `total_mwh += x / 12` and
`co2_rate += x / 12 * np.interp(x, curve['cum_cap'], curve['co2_rate'])`
over the row's columns, raising `KeyError` when a category is missing
from the loaded curve dict. -/
def rowSums (curves : List (String × List (ℚ × ℚ))) (tm cr : ℚ) :
    List (String × ℚ) → Except PyErr (ℚ × ℚ)
  | [] => .ok (tm, cr)
  | (c, x) :: rest =>
    if isBookkeeping c then rowSums curves tm cr rest
    else
      match List.lookup c curves with
      | none => .error .keyError
      | some curve =>
        match npInterp x curve with
        | .error e => .error e
        | .ok r => rowSums curves (tm + x / 12) (cr + x / 12 * r) rest

/-- One timestamp of the estimator output: the final
`df['co2_rate'] / df['total_mwh']` after the column loop. -/
def calcRow (curves : List (String × List (ℚ × ℚ))) (row : List (String × ℚ)) :
    Except PyErr PdFloat :=
  (rowSums curves 0 0 row).map (fun s => pdDiv s.2 s.1)

/-- The estimator output over the whole timestamp index. -/
def calcSeries (curves : List (String × List (ℚ × ℚ))) :
    List (List (String × ℚ)) → Except PyErr (List PdFloat)
  | [] => .ok []
  | r :: rs =>
    match calcRow curves r, calcSeries curves rs with
    | .ok v, .ok vs => .ok (v :: vs)
    | .error e, _ => .error e
    | .ok _, .error e => .error e

/-- The year-keyed pickle file read at the start of `calc_grid_co2_avg`:
the path may be absent from disk, present but zero bytes, or hold a
pickled curve set. -/
inductive CurveFile where
  | absent
  | empty
  | curves (cs : List (String × List (ℚ × ℚ)))

/-- Whether `calc_grid_co2_avg` reaches its `_logger.error(...)` call:
only the branch taken for an existing zero-byte file does (`open` on an
absent path raises before the guard). -/
def co2LogsError : CurveFile → Bool
  | .empty => true
  | _ => false

/-- A pandas DataFrame: a timestamp index plus named value columns. -/
structure Frame where
  index : List Int
  cols : List (String × List ℚ)

/-- `df[c] = values`: replace column `c` in place when it exists,
otherwise append it after the existing columns. -/
def setCol (c : String) (v : List ℚ) : List (String × List ℚ) → List (String × List ℚ)
  | [] => [(c, v)]
  | e :: es => if e.1 == c then (c, v) :: es else e :: setCol c v es

/-- The row of a column collection at index position `i`, in column
order. -/
def frameRow (cols : List (String × List ℚ)) (i : Nat) : List (String × ℚ) :=
  cols.filterMap (fun cx => (cx.2.get? i).map (fun x => (cx.1, x)))

/-- `calc_grid_co2_avg(dataframe, year)`: copy the input frame, read the
year's curve file (`open` raises `FileNotFoundError` when the path is
absent; an existing empty file logs an error and falls through to return
`None`), unpickle, add the zeroed bookkeeping columns to the copy, run
the column loop and the final division, and return the `co2_rate`
column.  The first component of the result is the caller's frame object
as the call leaves it. -/
def calc_grid_co2_avg (dataframe : Frame) (file : CurveFile) :
    Frame × Except PyErr (Option (List PdFloat)) :=
  let df : Frame := ⟨dataframe.index, dataframe.cols⟩
  match file with
  | .absent => (dataframe, .error .fileNotFoundError)
  | .empty => (dataframe, .ok none)
  | .curves cs =>
    let n := df.index.length
    let cols := setCol "co2_rate" (List.replicate n 0)
      (setCol "total_mwh" (List.replicate n 0) df.cols)
    let rows := (List.range n).map (frameRow cols)
    (dataframe, (calcSeries cs rows).map (fun out => some out))

/-- The three "Natural Gas" plants of the spec's concrete scenario:
(capacity factor, capacity MW, emissions rate) =
(0.9, 100, 400), (0.5, 50, 600), (0.0, 20, 300). -/
def c1plants : List Plant :=
  [⟨some (9/10), 100, 400, "Natural Gas"⟩,
   ⟨some (1/2), 50, 600, "Natural Gas"⟩,
   ⟨some 0, 20, 300, "Natural Gas"⟩]

/-- A small concrete curve set used to instantiate the estimator
theorems. -/
def wcurves : List (String × List (ℚ × ℚ)) :=
  [("Natural Gas", [(1, 400), (2, 500)]), ("Hydro", [(0, 0)])]

/-- Decidable equality for `Except` results. -/
instance {ε α : Type} [DecidableEq ε] [DecidableEq α] : DecidableEq (Except ε α) := fun x y =>
  match x, y with
  | .error a, .error b =>
    if h : a = b then isTrue (congrArg Except.error h)
    else isFalse (fun hc => h (Except.error.inj hc))
  | .error _, .ok _ => isFalse (fun hc => Except.noConfusion hc)
  | .ok _, .error _ => isFalse (fun hc => Except.noConfusion hc)
  | .ok a, .ok b =>
    if h : a = b then isTrue (congrArg Except.ok h)
    else isFalse (fun hc => h (Except.ok.inj hc))

/-! ### Interpolation lemmas -/

/-- `np.interp` never fails on a non-empty curve. -/
theorem npInterp_ok_of_ne_nil :
    ∀ (ps : List (ℚ × ℚ)), ps ≠ [] → ∀ x : ℚ, ∃ y, npInterp x ps = .ok y := by
  intro ps
  induction ps with
  | nil => intro h; exact absurd rfl h
  | cons p t ih =>
    intro _ x
    obtain ⟨x0, y0⟩ := p
    cases t with
    | nil => exact ⟨y0, rfl⟩
    | cons q t2 =>
      obtain ⟨x1, y1⟩ := q
      by_cases h0 : x < x0
      · exact ⟨y0, by simp [npInterp, h0]⟩
      · by_cases h1 : x < x1
        · exact ⟨y0 + (y1 - y0) * (x - x0) / (x1 - x0), by simp [npInterp, h0, h1]⟩
        · obtain ⟨y, hy⟩ := ih (by simp) x
          exact ⟨y, by simpa [npInterp, h0, h1] using hy⟩

/-- Below the first sample point, `np.interp` returns the first rate. -/
theorem npInterp_below :
    ∀ (ps : List (ℚ × ℚ)) (hne : ps ≠ []) (q : ℚ),
      q < (ps.head hne).1 → npInterp q ps = .ok (ps.head hne).2 := by
  intro ps
  induction ps with
  | nil => intro h; exact absurd rfl h
  | cons p t _ =>
    intro _ q hq
    obtain ⟨x0, y0⟩ := p
    cases t with
    | nil => rfl
    | cons b t2 =>
      obtain ⟨x1, y1⟩ := b
      simp only [List.head_cons] at hq
      simp [npInterp, hq]

/-- In a curve sorted by the first coordinate, the head's first
coordinate bounds the last element's from below. -/
theorem head_le_getLast_fst (p : ℚ × ℚ) (t : List (ℚ × ℚ))
    (hs : List.Pairwise (fun a b => a.1 ≤ b.1) (p :: t)) :
    p.1 ≤ ((p :: t).getLast (List.cons_ne_nil p t)).1 := by
  rcases List.mem_cons.mp (List.getLast_mem (List.cons_ne_nil p t)) with h | h
  · rw [h]
  · exact (List.pairwise_cons.mp hs).1 _ h

/-- Above the last sample point of a sorted curve, `np.interp` returns
the last rate. -/
theorem npInterp_above :
    ∀ (ps : List (ℚ × ℚ)) (hne : ps ≠ []),
      List.Pairwise (fun a b => a.1 ≤ b.1) ps → ∀ q : ℚ,
      (ps.getLast hne).1 < q → npInterp q ps = .ok (ps.getLast hne).2 := by
  intro ps
  induction ps with
  | nil => intro h; exact absurd rfl h
  | cons p t ih =>
    intro _ hs q hq
    obtain ⟨x0, y0⟩ := p
    cases t with
    | nil => rfl
    | cons b t2 =>
      have htail : (b :: t2) ≠ [] := List.cons_ne_nil b t2
      have hlast : ((⟨x0, y0⟩ : ℚ × ℚ) :: b :: t2).getLast (List.cons_ne_nil _ _) =
          (b :: t2).getLast htail := List.getLast_cons htail
      rw [hlast] at hq ⊢
      have h0 : ¬ q < x0 := by
        have := head_le_getLast_fst ⟨x0, y0⟩ (b :: t2) hs
        rw [hlast] at this
        exact not_lt.mpr (this.trans hq.le)
      have h1 : ¬ q < b.1 := by
        have := head_le_getLast_fst b t2 (List.Pairwise.of_cons hs)
        exact not_lt.mpr (this.trans hq.le)
      obtain ⟨x1, y1⟩ := b
      have := ih htail (List.Pairwise.of_cons hs) q hq
      simpa [npInterp, h0, h1] using this

/-- Between two adjacent sample points of a sorted curve, `np.interp`
is the linear interpolant of that segment. -/
theorem npInterp_segment :
    ∀ (pre suf : List (ℚ × ℚ)) (x0 y0 x1 y1 q : ℚ),
      List.Pairwise (fun a b => a.1 ≤ b.1) (pre ++ (x0, y0) :: (x1, y1) :: suf) →
      x0 ≤ q → q < x1 →
      npInterp q (pre ++ (x0, y0) :: (x1, y1) :: suf) =
        .ok (y0 + (y1 - y0) * (q - x0) / (x1 - x0)) := by
  intro pre
  induction pre with
  | nil =>
    intro suf x0 y0 x1 y1 q _ hq0 hq1
    simp [npInterp, not_lt.mpr hq0, hq1]
  | cons a pre2 ih =>
    intro suf x0 y0 x1 y1 q hs hq0 hq1
    have hmem : (⟨x0, y0⟩ : ℚ × ℚ) ∈ pre2 ++ (x0, y0) :: (x1, y1) :: suf :=
      List.mem_append.mpr (Or.inr (List.mem_cons_self _ _))
    have ha : a.1 ≤ q :=
      le_trans ((List.pairwise_cons.mp hs).1 _ hmem) hq0
    have htail := List.Pairwise.of_cons hs
    cases hpt : pre2 ++ (x0, y0) :: (x1, y1) :: suf with
    | nil => exact absurd hpt (List.append_ne_nil_of_right_ne_nil _ (by simp))
    | cons b rest =>
      have hb : b.1 ≤ q := by
        cases pre2 with
        | nil =>
          simp only [List.nil_append, List.cons.injEq] at hpt
          rw [← hpt.1]
          exact hq0
        | cons c pre3 =>
          simp only [List.cons_append, List.cons.injEq] at hpt
          have hmem2 : (⟨x0, y0⟩ : ℚ × ℚ) ∈ pre3 ++ (x0, y0) :: (x1, y1) :: suf :=
            List.mem_append.mpr (Or.inr (List.mem_cons_self _ _))
          have : List.Pairwise (fun a b => a.1 ≤ b.1)
              (c :: (pre3 ++ (x0, y0) :: (x1, y1) :: suf)) := by
            simpa using htail
          rw [← hpt.1]
          exact le_trans ((List.pairwise_cons.mp this).1 _ hmem2) hq0
      obtain ⟨xa, ya⟩ := a
      obtain ⟨xb, yb⟩ := b
      have goal2 := ih suf x0 y0 x1 y1 q (by simpa using htail) hq0 hq1
      rw [hpt] at goal2
      simp only [List.cons_append, hpt, npInterp, not_lt.mpr ha, if_false,
        not_lt.mpr hb]
      simpa [not_lt.mpr ha, not_lt.mpr hb] using goal2

/-! ### Estimator lemmas -/

/-- Equation lemma: the column loop skips a bookkeeping column. -/
theorem rowSums_cons_skip (curves : List (String × List (ℚ × ℚ))) (c : String) (x : ℚ)
    (rest : List (String × ℚ)) (tm cr : ℚ) (hb : isBookkeeping c = true) :
    rowSums curves tm cr ((c, x) :: rest) = rowSums curves tm cr rest := by
  simp [rowSums, hb]

/-- Equation lemma: a category missing from the curve dict raises
`KeyError`. -/
theorem rowSums_cons_miss (curves : List (String × List (ℚ × ℚ))) (c : String) (x : ℚ)
    (rest : List (String × ℚ)) (tm cr : ℚ) (hb : isBookkeeping c = false)
    (hlu : List.lookup c curves = none) :
    rowSums curves tm cr ((c, x) :: rest) = .error .keyError := by
  simp [rowSums, hb, hlu]

/-- Equation lemma: an interpolation failure propagates out of the
column loop. -/
theorem rowSums_cons_interr (curves : List (String × List (ℚ × ℚ))) (c : String) (x : ℚ)
    (rest : List (String × ℚ)) (tm cr : ℚ) (cw : List (ℚ × ℚ)) (e : PyErr)
    (hb : isBookkeeping c = false) (hlu : List.lookup c curves = some cw)
    (hni : npInterp x cw = .error e) :
    rowSums curves tm cr ((c, x) :: rest) = .error e := by
  simp [rowSums, hb, hlu, hni]

/-- Equation lemma: a successfully interpolated column adds its energy
and emissions contributions to the accumulators. -/
theorem rowSums_cons_found (curves : List (String × List (ℚ × ℚ))) (c : String) (x : ℚ)
    (rest : List (String × ℚ)) (tm cr : ℚ) (cw : List (ℚ × ℚ)) (r : ℚ)
    (hb : isBookkeeping c = false) (hlu : List.lookup c curves = some cw)
    (hni : npInterp x cw = .ok r) :
    rowSums curves tm cr ((c, x) :: rest) =
      rowSums curves (tm + x / 12) (cr + x / 12 * r) rest := by
  simp [rowSums, hb, hlu, hni]

/-- The column loop splits over a column-list append. -/
theorem rowSums_append (curves : List (String × List (ℚ × ℚ))) :
    ∀ (l1 l2 : List (String × ℚ)) (tm cr : ℚ),
      rowSums curves tm cr (l1 ++ l2) =
        (rowSums curves tm cr l1).bind (fun s => rowSums curves s.1 s.2 l2) := by
  intro l1
  induction l1 with
  | nil => intro l2 tm cr; rfl
  | cons e t ih =>
    intro l2 tm cr
    obtain ⟨c, x⟩ := e
    by_cases hb : isBookkeeping c = true
    · rw [List.cons_append, rowSums_cons_skip curves c x _ tm cr hb,
        rowSums_cons_skip curves c x _ tm cr hb, ih]
    · have hbf : isBookkeeping c = false := by simpa using hb
      cases hlu : List.lookup c curves with
      | none =>
        rw [List.cons_append, rowSums_cons_miss curves c x _ tm cr hbf hlu,
          rowSums_cons_miss curves c x _ tm cr hbf hlu]
        rfl
      | some cw =>
        cases hni : npInterp x cw with
        | error e2 =>
          rw [List.cons_append, rowSums_cons_interr curves c x _ tm cr cw e2 hbf hlu hni,
            rowSums_cons_interr curves c x _ tm cr cw e2 hbf hlu hni]
          rfl
        | ok r =>
          rw [List.cons_append, rowSums_cons_found curves c x _ tm cr cw r hbf hlu hni,
            rowSums_cons_found curves c x _ tm cr cw r hbf hlu hni, ih]

/-- The column loop succeeds whenever every non-bookkeeping column has
a usable curve. -/
theorem rowSums_covered_ok (curves : List (String × List (ℚ × ℚ))) :
    ∀ (l : List (String × ℚ)) (tm cr : ℚ),
      (∀ e ∈ l, isBookkeeping e.1 = false → hasCurve curves e.1 = true) →
      ∃ s, rowSums curves tm cr l = .ok s := by
  intro l
  induction l with
  | nil => intro tm cr _; exact ⟨(tm, cr), rfl⟩
  | cons e t ih =>
    intro tm cr hc
    obtain ⟨c, x⟩ := e
    by_cases hb : isBookkeeping c = true
    · rw [rowSums_cons_skip curves c x t tm cr hb]
      exact ih tm cr (fun e he h => hc e (List.mem_cons_of_mem _ he) h)
    · have hbf : isBookkeeping c = false := by simpa using hb
      have hcv := hc (c, x) (List.mem_cons_self _ _) hbf
      unfold hasCurve at hcv
      cases hlu : List.lookup c curves with
      | none => rw [hlu] at hcv; simp at hcv
      | some cw =>
        cases cw with
        | nil => rw [hlu] at hcv; simp at hcv
        | cons pt cw2 =>
          obtain ⟨r, hr⟩ := npInterp_ok_of_ne_nil (pt :: cw2) (by simp) x
          rw [rowSums_cons_found curves c x t tm cr (pt :: cw2) r hbf hlu hr]
          exact ih _ _ (fun e he h => hc e (List.mem_cons_of_mem _ he) h)

/-- If the column loop succeeds on a row whose non-bookkeeping entries
are all zero, the accumulators come back unchanged. -/
theorem rowSums_ok_zeros (curves : List (String × List (ℚ × ℚ))) :
    ∀ (l : List (String × ℚ)) (tm cr : ℚ) (s : ℚ × ℚ),
      rowSums curves tm cr l = .ok s →
      (∀ e ∈ l, isBookkeeping e.1 = false → e.2 = 0) →
      s = (tm, cr) := by
  intro l
  induction l with
  | nil =>
    intro tm cr s h _
    simpa [rowSums] using h.symm
  | cons e t ih =>
    intro tm cr s h hz
    obtain ⟨c, x⟩ := e
    by_cases hb : isBookkeeping c = true
    · rw [rowSums_cons_skip curves c x t tm cr hb] at h
      exact ih tm cr s h (fun e he hbe => hz e (List.mem_cons_of_mem _ he) hbe)
    · have hbf : isBookkeeping c = false := by simpa using hb
      have hx : x = 0 := hz (c, x) (List.mem_cons_self _ _) hbf
      cases hlu : List.lookup c curves with
      | none =>
        rw [rowSums_cons_miss curves c x t tm cr hbf hlu] at h
        exact absurd h (by simp)
      | some cw =>
        cases hni : npInterp x cw with
        | error e2 =>
          rw [rowSums_cons_interr curves c x t tm cr cw e2 hbf hlu hni] at h
          exact absurd h (by simp)
        | ok r =>
          rw [rowSums_cons_found curves c x t tm cr cw r hbf hlu hni] at h
          have := ih _ _ s h (fun e he hbe => hz e (List.mem_cons_of_mem _ he) hbe)
          rw [this, hx]
          norm_num

/-- Inversion for a successful `calcRow`. -/
theorem calcRow_ok_inv (curves : List (String × List (ℚ × ℚ)))
    (row : List (String × ℚ)) (w : PdFloat)
    (h : calcRow curves row = .ok w) :
    ∃ s, rowSums curves 0 0 row = .ok s ∧ w = pdDiv s.2 s.1 := by
  unfold calcRow at h
  cases hs : rowSums curves 0 0 row with
  | error e => rw [hs] at h; exact absurd h (by simp [Except.map])
  | ok s =>
    rw [hs] at h
    simp only [Except.map] at h
    exact ⟨s, rfl, (by injection h with h2; exact h2.symm)⟩

/-- Inversion for a successful `calcSeries` step. -/
theorem calcSeries_cons_inv (curves : List (String × List (ℚ × ℚ)))
    (r : List (String × ℚ)) (rs : List (List (String × ℚ))) (outs : List PdFloat)
    (h : calcSeries curves (r :: rs) = .ok outs) :
    ∃ v vs, calcRow curves r = .ok v ∧ calcSeries curves rs = .ok vs ∧
      outs = v :: vs := by
  cases hcr : calcRow curves r with
  | error e => rw [calcSeries, hcr] at h; exact absurd h (by simp)
  | ok v =>
    cases hcs : calcSeries curves rs with
    | error e => rw [calcSeries, hcr, hcs] at h; exact absurd h (by simp)
    | ok vs =>
      rw [calcSeries, hcr, hcs] at h
      injection h with h2
      exact ⟨v, vs, rfl, rfl, h2.symm⟩

/-- Each entry of a successful estimator output is computed from its
own timestamp's row alone. -/
theorem calcSeries_pointwise (curves : List (String × List (ℚ × ℚ))) :
    ∀ (rows : List (List (String × ℚ))) (outs : List PdFloat),
      calcSeries curves rows = .ok outs →
      ∀ (j : Nat) (rj : List (String × ℚ)), rows.get? j = some rj →
        ∃ w, outs.get? j = some w ∧ calcRow curves rj = .ok w := by
  intro rows
  induction rows with
  | nil => intro outs _ j rj hj; simp at hj
  | cons r rs ih =>
    intro outs h j rj hj
    obtain ⟨v, vs, hcr, hcs, houts⟩ := calcSeries_cons_inv curves r rs outs h
    subst houts
    cases j with
    | zero =>
      simp only [List.get?] at hj
      injection hj with hj2
      subst hj2
      exact ⟨v, rfl, hcr⟩
    | succ j2 =>
      simp only [List.get?] at hj ⊢
      exact ih vs hcs j2 rj hj

/-! ### Curve-builder lemmas -/

/-- Membership after inserting into the ranked list. -/
theorem mem_insertDesc {q p : Plant} :
    ∀ {l : List Plant}, q ∈ insertDesc p l → q = p ∨ q ∈ l := by
  intro l
  induction l with
  | nil => intro h; simpa [insertDesc] using h
  | cons a t ih =>
    intro h
    rw [insertDesc] at h
    by_cases hc : cfGT a p
    · rw [if_pos hc] at h
      rcases List.mem_cons.mp h with h | h
      · exact Or.inr (h ▸ List.mem_cons_self a t)
      · rcases ih h with h2 | h2
        · exact Or.inl h2
        · exact Or.inr (List.mem_cons_of_mem a h2)
    · rw [if_neg hc] at h
      rcases List.mem_cons.mp h with h | h
      · exact Or.inl h
      · exact Or.inr h

/-- Membership after the ranking sort. -/
theorem mem_sortCapfacDesc {q : Plant} :
    ∀ {l : List Plant}, q ∈ sortCapfacDesc l → q ∈ l := by
  intro l
  induction l with
  | nil => intro h; simp [sortCapfacDesc] at h
  | cons p t ih =>
    intro h
    rcases mem_insertDesc h with h2 | h2
    · exact h2 ▸ List.mem_cons_self p t
    · exact List.mem_cons_of_mem p (ih h2)

/-- Plants carried by `attachCum` come from the input list. -/
theorem attachCum_mem_fst :
    ∀ {l : List Plant} {acc : ℚ} {pc : Plant × ℚ}, pc ∈ attachCum acc l → pc.1 ∈ l := by
  intro l
  induction l with
  | nil => intro acc pc h; simp [attachCum] at h
  | cons p t ih =>
    intro acc pc h
    simp only [attachCum, List.mem_cons] at h
    rcases h with h | h
    · rw [h]; exact List.mem_cons_self p t
    · exact List.mem_cons_of_mem p (ih h)

/-- With non-negative capacities the running `cum_cap` values are
bounded below by the accumulator and pairwise non-decreasing. -/
theorem attachCum_snd_chain :
    ∀ (l : List Plant) (acc : ℚ), (∀ p ∈ l, 0 ≤ p.namepcap) →
      List.Pairwise (· ≤ ·) (acc :: (attachCum acc l).map (fun pc => pc.2)) := by
  intro l
  induction l with
  | nil => intro acc _; simp [attachCum]
  | cons p t ih =>
    intro acc hcap
    have hp : 0 ≤ p.namepcap := hcap p (List.mem_cons_self p t)
    have htail := ih (acc + p.namepcap)
      (fun q hq => hcap q (List.mem_cons_of_mem p hq))
    simp only [attachCum, List.map_cons]
    refine List.pairwise_cons.mpr ⟨?_, htail⟩
    intro b hb
    rcases List.mem_cons.mp hb with h | h
    · rw [h]; linarith
    · have := (List.pairwise_cons.mp htail).1 b h
      linarith

/-- The `cum_cap` components survive `attachCo2` as first coordinates. -/
theorem attachCo2_fst :
    ∀ (l : List (Plant × ℚ)) (acc : ℚ),
      (attachCo2 acc l).map Prod.fst = l.map (fun pc => pc.2) := by
  intro l
  induction l with
  | nil => intro acc; rfl
  | cons e t ih =>
    intro acc
    obtain ⟨p, cc⟩ := e
    simp [attachCo2, ih]

/-- The domain points of the pre-rescale curve are exactly the
`cum_cap` values of the kept rows. -/
theorem buildCurvePre_fst (plants : List Plant) (v : String) :
    (buildCurvePre plants v).map Prod.fst =
      ((attachCum 0 (sortCapfacDesc (plants.filter (fun p => p.fuelcat == v)))).filter
        (fun pc => decide (pc.1.capfac.getD 0 ≠ 0))).map (fun pc => pc.2) := by
  unfold buildCurvePre
  rw [List.map_map]
  have : (Prod.fst ∘ fun cc : ℚ × ℚ => (cc.1, cc.2 / cc.1)) = Prod.fst := by
    funext cc; rfl
  rw [this, attachCo2_fst]

/-- `Series.max()` of a list of non-negative values is non-negative. -/
theorem seriesMax_nonneg :
    ∀ (l : List ℚ), (∀ x ∈ l, 0 ≤ x) → 0 ≤ seriesMax l := by
  intro l
  induction l with
  | nil => intro _; simp [seriesMax]
  | cons x t ih =>
    intro h
    cases t with
    | nil => exact h x (List.mem_cons_self x [])
    | cons y t2 =>
      have := h x (List.mem_cons_self _ _)
      simp only [seriesMax]
      exact le_max_of_le_left this

/-! ### Claim theorems -/

/-- C4: for every non-empty `FuelCategoryCurve` (ordered points,
non-decreasing in cumulative capacity), interpolating at a query
strictly below the curve's minimum cumulative-capacity value returns
exactly the first point's rate, strictly above the maximum returns
exactly the last point's rate, and between two adjacent points the
result is the linear interpolant of that segment. -/
theorem C4_interpolation_clamps (ps : List (ℚ × ℚ)) (hne : ps ≠ [])
    (hsort : List.Pairwise (fun a b => a.1 ≤ b.1) ps) :
    (∀ q : ℚ, q < (ps.head hne).1 → npInterp q ps = .ok (ps.head hne).2) ∧
    (∀ q : ℚ, (ps.getLast hne).1 < q → npInterp q ps = .ok (ps.getLast hne).2) ∧
    (∀ (pre suf : List (ℚ × ℚ)) (x0 y0 x1 y1 q : ℚ),
      ps = pre ++ (x0, y0) :: (x1, y1) :: suf → x0 ≤ q → q < x1 →
      npInterp q ps = .ok (y0 + (y1 - y0) * (q - x0) / (x1 - x0))) := by
  refine ⟨fun q hq => npInterp_below ps hne q hq,
          fun q hq => npInterp_above ps hne hsort q hq,
          fun pre suf x0 y0 x1 y1 q hps hq0 hq1 => ?_⟩
  subst hps
  exact npInterp_segment pre suf x0 y0 x1 y1 q hsort hq0 hq1

/-- Witness for C4 on the concrete curve [(1, 400), (2, 500)]:
clamp below, clamp above, and the midpoint value. -/
theorem C4_witness :
    npInterp 0 [((1 : ℚ), (400 : ℚ)), (2, 500)] = .ok 400 ∧
    npInterp 3 [((1 : ℚ), (400 : ℚ)), (2, 500)] = .ok 500 ∧
    npInterp (3/2) [((1 : ℚ), (400 : ℚ)), (2, 500)] = .ok 450 := by
  have h := C4_interpolation_clamps [(1, 400), (2, 500)] (by simp) (by decide)
  refine ⟨h.1 0 (by norm_num), h.2.1 3 (by norm_num), ?_⟩
  have h2 := h.2.2 [] [] 1 400 2 500 (3/2) rfl (by norm_num) (by norm_num)
  rw [h2]
  norm_num

/-- C5: every curve built from plants with non-negative nameplate
capacities and a non-negative observed category peak has non-decreasing
cumulative-capacity values across its ordered points, both before and
after the rescale step. -/
theorem C5_monotone_cum_cap (plants : List Plant) (v : String) (peak : ℚ)
    (hcap : ∀ p ∈ plants, 0 ≤ p.namepcap) (hpeak : 0 ≤ peak) :
    List.Pairwise (fun a b => a.1 ≤ b.1) (buildCurvePre plants v) ∧
    List.Pairwise (fun a b => a.1 ≤ b.1) (buildCurve plants v peak) := by
  have hall : ∀ p ∈ sortCapfacDesc (plants.filter (fun p => p.fuelcat == v)),
      0 ≤ p.namepcap := by
    intro p hp
    exact hcap p (List.mem_of_mem_filter (mem_sortCapfacDesc hp))
  have hchain := attachCum_snd_chain _ 0 hall
  have hpw := List.Pairwise.of_cons hchain
  have hlb := (List.pairwise_cons.mp hchain).1
  have hsub : List.Sublist
      (((attachCum 0 (sortCapfacDesc (plants.filter (fun p => p.fuelcat == v)))).filter
          (fun pc => decide (pc.1.capfac.getD 0 ≠ 0))).map (fun pc => pc.2))
      ((attachCum 0 (sortCapfacDesc (plants.filter (fun p => p.fuelcat == v)))).map
          (fun pc => pc.2)) :=
    (List.filter_sublist _).map _
  have hkpw := List.Pairwise.sublist hsub hpw
  have hfst := buildCurvePre_fst plants v
  have hprem : List.Pairwise (· ≤ ·) ((buildCurvePre plants v).map Prod.fst) := by
    rw [hfst]; exact hkpw
  have hpre : List.Pairwise (fun a b => a.1 ≤ b.1) (buildCurvePre plants v) :=
    (List.pairwise_map).mp hprem
  refine ⟨hpre, ?_⟩
  have hnn : ∀ x ∈ (buildCurvePre plants v).map Prod.fst, 0 ≤ x := by
    intro x hx
    rw [hfst] at hx
    exact hlb x (hsub.subset hx)
  have hm : 0 ≤ seriesMax ((buildCurvePre plants v).map Prod.fst) :=
    seriesMax_nonneg _ hnn
  have hfac : 0 ≤ peak / seriesMax ((buildCurvePre plants v).map Prod.fst) :=
    div_nonneg hpeak hm
  simp only [buildCurve]
  refine (List.pairwise_map).mpr ?_
  refine hpre.imp ?_
  intro a b hab
  dsimp only
  rw [mul_div_assoc, mul_div_assoc]
  exact mul_le_mul_of_nonneg_right hab hfac

/-- Witness for C5 on the spec's concrete three-plant scenario. -/
theorem C5_witness :
    List.Pairwise (fun a b => a.1 ≤ b.1) (buildCurvePre c1plants "Natural Gas") ∧
    List.Pairwise (fun a b => a.1 ≤ b.1) (buildCurve c1plants "Natural Gas" 80) :=
  C5_monotone_cum_cap c1plants "Natural Gas" 80 (by decide) (by norm_num)

/-- C1 (counterexample): on the spec's concrete three-plant scenario the
code does not produce the claimed pre-rescale points (100, 400),
(150, 480) nor the claimed rescaled points (53.33, 400), (80, 480): the
second blended rate is 1400/3 ≈ 466.67, not 480, and the first rescaled
domain point is 160/3, not 53.33. -/
theorem C1_counterexample :
    buildCurvePre c1plants "Natural Gas" ≠ [(100, 400), (150, 480)] ∧
    buildCurve c1plants "Natural Gas" 80 ≠ [(5333/100, 400), (80, 480)] := by
  constructor <;>
    norm_num [buildCurve, buildCurvePre, c1plants, sortCapfacDesc, insertDesc, cfGT,
      attachCum, attachCo2, seriesMax]

/-- C1 (amended): the built pre-rescale curve is (100, 400),
(150, 1400/3); after rescaling by 80/150 the points are (160/3, 400),
(80, 1400/3); and interpolating at generation 40 clamps to 400. -/
theorem C1_amended_scenario :
    buildCurvePre c1plants "Natural Gas" = [(100, 400), (150, 1400/3)] ∧
    buildCurve c1plants "Natural Gas" 80 = [(160/3, 400), (80, 1400/3)] ∧
    npInterp 40 (buildCurve c1plants "Natural Gas" 80) = .ok 400 := by
  refine ⟨?_, ?_, ?_⟩ <;>
    norm_num [buildCurve, buildCurvePre, c1plants, sortCapfacDesc, insertDesc, cfGT,
      attachCum, attachCo2, seriesMax, npInterp]

/-- C7 (counterexample): a category with no matching plants yields an
empty curve, but interpolating against the empty curve raises
`ValueError` (from `np.interp` on an empty sample-point array), which is
not a `LookupError`. -/
theorem C7_counterexample :
    buildCurve c1plants "Wind" 80 = [] ∧
    npInterp 40 (buildCurve c1plants "Wind" 80) = .error .valueError ∧
    isLookupError .valueError = false := by
  refine ⟨?_, ?_, rfl⟩ <;>
    norm_num [buildCurve, buildCurvePre, c1plants, sortCapfacDesc, insertDesc, cfGT,
      attachCum, attachCo2, seriesMax, npInterp]

/-- C7 (amended): a category all of whose matching plants have capacity
factor zero (in particular, a category with no matching plants) yields
an empty curve both before and after rescaling, and any interpolation
against the empty curve fails with `ValueError`. -/
theorem C7_empty_curve (plants : List Plant) (v : String) (peak : ℚ) (q : ℚ)
    (h : ∀ p ∈ plants, p.fuelcat = v → p.capfac.getD 0 = 0) :
    buildCurvePre plants v = [] ∧ buildCurve plants v peak = [] ∧
    npInterp q (buildCurve plants v peak) = .error .valueError := by
  have hkept : ((attachCum 0 (sortCapfacDesc (plants.filter (fun p => p.fuelcat == v)))).filter
      (fun pc => decide (pc.1.capfac.getD 0 ≠ 0))) = [] := by
    rw [List.filter_eq_nil_iff]
    intro pc hpc
    have hmem := attachCum_mem_fst hpc
    have hsel := mem_sortCapfacDesc hmem
    have hv : pc.1.fuelcat = v := by
      have := (List.mem_filter.mp hsel).2
      simpa using this
    have hz := h pc.1 (List.mem_filter.mp hsel).1 hv
    simp [hz]
  have hpre : buildCurvePre plants v = [] := by
    simp only [buildCurvePre]
    rw [hkept]
    rfl
  have hcur : buildCurve plants v peak = [] := by
    simp only [buildCurve]
    rw [hpre]
    rfl
  exact ⟨hpre, hcur, by rw [hcur]; rfl⟩

/-- Witness for C7 (amended) at the concrete scenario: no plant of
category "Wind" exists, the curve is empty, and interpolation fails
with `ValueError`. -/
theorem C7_witness :
    buildCurve c1plants "Wind" 80 = [] ∧
    npInterp 40 (buildCurve c1plants "Wind" 80) = .error .valueError := by
  have h := C7_empty_curve c1plants "Wind" 80 40 (by decide)
  exact ⟨h.2.1, h.2.2⟩

/-- The final division of `calcRow` cancels the single category's
energy weight. -/
theorem pdDiv_cancel (x r : ℚ) (hx : x ≠ 0) :
    pdDiv (0 + x / 12 * r) (0 + x / 12) = .val r := by
  have h12 : x / 12 ≠ 0 := div_ne_zero hx (by norm_num)
  have hd : (0 : ℚ) + x / 12 ≠ 0 := by simpa using h12
  unfold pdDiv
  rw [if_neg hd, zero_add, zero_add, mul_div_cancel_left₀ r h12]

/-- A successful row and a successful remainder make a successful
series. -/
theorem calcSeries_cons_ok (curves : List (String × List (ℚ × ℚ)))
    (r : List (String × ℚ)) (rs : List (List (String × ℚ)))
    (v : PdFloat) (vs : List PdFloat)
    (h1 : calcRow curves r = .ok v) (h2 : calcSeries curves rs = .ok vs) :
    calcSeries curves (r :: rs) = .ok (v :: vs) := by
  rw [calcSeries, h1, h2]

/-- Concrete evaluation: a row with Hydro at 0 MW, Natural Gas at 3 MW
and a bookkeeping column evaluates to Natural Gas's clamped rate 500. -/
theorem calcRow_wcurves_ng :
    calcRow wcurves [("Hydro", 0), ("Natural Gas", 3), ("total_mwh", 7)] =
      .ok (.val 500) := by
  have e1 : List.lookup "Hydro" wcurves = some [(0, 0)] := by decide
  have i1 : npInterp 0 [((0 : ℚ), (0 : ℚ))] = .ok 0 := rfl
  have e2 : List.lookup "Natural Gas" wcurves = some [(1, 400), (2, 500)] := by decide
  have i2 : npInterp 3 [((1 : ℚ), (400 : ℚ)), (2, 500)] = .ok 500 := by decide
  unfold calcRow
  rw [rowSums_cons_found wcurves "Hydro" 0 _ 0 0 [(0, 0)] 0 (by decide) e1 i1,
    rowSums_cons_found wcurves "Natural Gas" 3 _ _ _ [(1, 400), (2, 500)] 500
      (by decide) e2 i2,
    rowSums_cons_skip wcurves "total_mwh" 7 _ _ _ (by decide)]
  simp only [rowSums, Except.map]
  norm_num [pdDiv]

/-- Concrete evaluation: a Natural Gas row at 0 MW gives total
generation 0 and a `NaN` blended rate. -/
theorem calcRow_wcurves_zero :
    calcRow wcurves [("Natural Gas", 0)] = .ok .nan := by
  have e2 : List.lookup "Natural Gas" wcurves = some [(1, 400), (2, 500)] := by decide
  have i0 : npInterp 0 [((1 : ℚ), (400 : ℚ)), (2, 500)] = .ok 400 := by decide
  unfold calcRow
  rw [rowSums_cons_found wcurves "Natural Gas" 0 _ 0 0 [(1, 400), (2, 500)] 400
    (by decide) e2 i0]
  simp only [rowSums, Except.map]
  norm_num [pdDiv]

/-- Concrete evaluation: a Natural Gas row at 3 MW gives the clamped
rate 500. -/
theorem calcRow_wcurves_three :
    calcRow wcurves [("Natural Gas", 3)] = .ok (.val 500) := by
  have e2 : List.lookup "Natural Gas" wcurves = some [(1, 400), (2, 500)] := by decide
  have i2 : npInterp 3 [((1 : ℚ), (400 : ℚ)), (2, 500)] = .ok 500 := by decide
  unfold calcRow
  rw [rowSums_cons_found wcurves "Natural Gas" 3 _ 0 0 [(1, 400), (2, 500)] 500
    (by decide) e2 i2]
  simp only [rowSums, Except.map]
  norm_num [pdDiv]

/-- C3: when exactly one fuel-category column of a timestamp's row has
non-zero generation (all other category columns being zero there), the
estimator's output at that timestamp is exactly the interpolated curve
value for that category at that generation level. -/
theorem C3_single_category (curves : List (String × List (ℚ × ℚ)))
    (rows : List (List (String × ℚ))) (outs : List PdFloat) (i : Nat)
    (pre suf : List (String × ℚ)) (c0 : String) (x r : ℚ) (cv : List (ℚ × ℚ))
    (hok : calcSeries curves rows = .ok outs)
    (hrow : rows.get? i = some (pre ++ (c0, x) :: suf))
    (hskip : isBookkeeping c0 = false) (hx : x ≠ 0)
    (hc0 : List.lookup c0 curves = some cv) (hr : npInterp x cv = .ok r)
    (hz : ∀ e ∈ pre ++ suf, isBookkeeping e.1 = false → e.2 = 0) :
    outs.get? i = some (.val r) := by
  obtain ⟨w, hw, hcr⟩ := calcSeries_pointwise curves rows outs hok i _ hrow
  obtain ⟨s, hs, hws⟩ := calcRow_ok_inv curves _ w hcr
  rw [rowSums_append] at hs
  cases hpre : rowSums curves 0 0 pre with
  | error e =>
    rw [hpre] at hs
    simp [Except.bind] at hs
  | ok s1 =>
    have hzpre : ∀ e ∈ pre, isBookkeeping e.1 = false → e.2 = 0 :=
      fun e he hb => hz e (List.mem_append.mpr (Or.inl he)) hb
    have hzsuf : ∀ e ∈ suf, isBookkeeping e.1 = false → e.2 = 0 :=
      fun e he hb => hz e (List.mem_append.mpr (Or.inr he)) hb
    obtain ⟨a, b⟩ := s1
    obtain ⟨ha, hb⟩ := Prod.mk.injEq .. ▸ rowSums_ok_zeros curves pre 0 0 (a, b) hpre hzpre
    rw [hpre] at hs
    simp only [Except.bind] at hs
    subst ha
    subst hb
    rw [rowSums_cons_found curves c0 x suf _ _ cv r hskip hc0 hr] at hs
    have hsv := rowSums_ok_zeros curves suf _ _ s hs hzsuf
    rw [hw, hws, hsv]
    dsimp only
    rw [pdDiv_cancel x r hx]

/-- Witness for C3: a two-category row in which only Natural Gas (3 MW)
is non-zero yields exactly the interpolated Natural Gas rate 500. -/
theorem C3_witness :
    ([PdFloat.val 500] : List PdFloat).get? 0 = some (.val 500) :=
  C3_single_category wcurves [[("Hydro", 0), ("Natural Gas", 3), ("total_mwh", 7)]]
    [.val 500] 0 [("Hydro", 0)] [("total_mwh", 7)] "Natural Gas" 3 500
    [(1, 400), (2, 500)]
    (calcSeries_cons_ok wcurves _ [] (.val 500) [] calcRow_wcurves_ng rfl)
    (by decide) (by decide) (by decide) (by decide) (by decide) (by decide)

/-- C8: a fuel-category column with no entry in the loaded curve set
makes the timestamp's intensity estimation fail with `KeyError` — a
`LookupError` — rather than being silently skipped. -/
theorem C8_missing_category (curves : List (String × List (ℚ × ℚ)))
    (pre suf : List (String × ℚ)) (c0 : String) (x : ℚ)
    (hskip : isBookkeeping c0 = false)
    (hmiss : List.lookup c0 curves = none)
    (hcover : ∀ e ∈ pre, isBookkeeping e.1 = false → hasCurve curves e.1 = true) :
    calcRow curves (pre ++ (c0, x) :: suf) = .error .keyError ∧
    isLookupError .keyError = true := by
  obtain ⟨s, hs⟩ := rowSums_covered_ok curves pre 0 0 hcover
  have herr : rowSums curves 0 0 (pre ++ (c0, x) :: suf) = .error .keyError := by
    rw [rowSums_append, hs]
    simp only [Except.bind]
    exact rowSums_cons_miss curves c0 x suf s.1 s.2 hskip hmiss
  unfold calcRow
  rw [herr]
  exact ⟨rfl, rfl⟩

/-- Witness for C8: the curve set lacks "Wind", so a row containing a
Wind column fails with `KeyError`. -/
theorem C8_witness :
    calcRow wcurves [("Hydro", 0), ("Wind", 5)] = .error .keyError :=
  (C8_missing_category wcurves [("Hydro", 0)] [] "Wind" 5 (by decide) (by decide)
    (by decide)).1

/-- C9: at a timestamp whose total generation over all fuel-category
columns is zero, the estimator's output is the missing value `NaN`
rather than an error, and every other timestamp's output is still
computed from its own row alone. -/
theorem C9_zero_total_nan (curves : List (String × List (ℚ × ℚ)))
    (rows : List (List (String × ℚ))) (outs : List PdFloat) (i : Nat)
    (ri : List (String × ℚ))
    (hok : calcSeries curves rows = .ok outs)
    (hrow : rows.get? i = some ri)
    (hz : ∀ e ∈ ri, isBookkeeping e.1 = false → e.2 = 0) :
    outs.get? i = some PdFloat.nan ∧
    ∀ (j : Nat) (rj : List (String × ℚ)), rows.get? j = some rj →
      ∃ w, outs.get? j = some w ∧ calcRow curves rj = .ok w := by
  constructor
  · obtain ⟨w, hw, hcr⟩ := calcSeries_pointwise curves rows outs hok i ri hrow
    obtain ⟨s, hs, hws⟩ := calcRow_ok_inv curves ri w hcr
    have hsv := rowSums_ok_zeros curves ri 0 0 s hs hz
    rw [hw, hws, hsv]
    dsimp only
    norm_num [pdDiv]
  · exact calcSeries_pointwise curves rows outs hok

/-- Witness for C9: a series whose first timestamp has zero Natural Gas
generation produces `NaN` there and the clamped rate 500 at the other
timestamp. -/
theorem C9_witness :
    ([PdFloat.nan, PdFloat.val 500] : List PdFloat).get? 0 = some PdFloat.nan :=
  (C9_zero_total_nan wcurves [[("Natural Gas", 0)], [("Natural Gas", 3)]]
    [.nan, .val 500] 0 [("Natural Gas", 0)]
    (calcSeries_cons_ok wcurves _ _ .nan [.val 500] calcRow_wcurves_zero
      (calcSeries_cons_ok wcurves _ [] (.val 500) [] calcRow_wcurves_three rfl))
    (by decide) (by decide)).1

/-- C2: for a basis year whose curve blob was never saved, the claim
says the load returns an absent result and logs an error without
raising; the code instead raises an uncaught `FileNotFoundError` from
`open`, and its logged "not found" fallback (which does return `None`)
is reachable only for an existing zero-byte file. -/
theorem C2_missing_year_raises :
    (calc_grid_co2_avg ⟨[], []⟩ .absent).2 = .error .fileNotFoundError ∧
    (calc_grid_co2_avg ⟨[], []⟩ .absent).2 ≠ .ok none ∧
    co2LogsError .absent = false ∧
    (calc_grid_co2_avg ⟨[], []⟩ .empty).2 = .ok none ∧
    co2LogsError .empty = true := by
  refine ⟨rfl, ?_, rfl, rfl, rfl⟩
  intro h
  exact Except.noConfusion h

/-- C10: `calc_grid_co2_avg` never mutates its input: the bookkeeping
columns are added to an internal copy only, and the caller's frame
(index, columns and values) is identical before and after the call. -/
theorem C10_input_not_mutated (dataframe : Frame) (file : CurveFile) :
    (calc_grid_co2_avg dataframe file).1 = dataframe := by
  cases file <;> rfl

end HomeEnergy
